import Mathlib

/-!
# defluxio: frequency provider and time-series client

A shallow embedding of

* `cmd/defluxio-provider/main.go`: `serial_read_readings`, the loop that reads
  `<TYPE>;<FIELD1>;...` records and filters frequency samples (range check, warmup,
  spike check) before sending them on `readingChannel`;
* `database.go`: `MkDBPusher`, `points2meterreadings`, `GetFrequenciesBetween`,
  `GetLastFrequencies` and `GetLastFrequency` of `DBClient`.

Conventions.

* A `float64` of the provider is a value of `F64`: a finite value, given by the rational
  number it denotes, NaN, or an infinity, with the comparisons and the subtraction of
  IEEE 754.  Every subtraction of finite values the provider performs has operands that
  are `0` or lie in `[48, 52]`, so the exact difference is the one computed in binary
  floating point.  In `database.go` the values of readings and of JSON numbers are finite
  and given by their rational number.
* `strconv.ParseFloat` and the InfluxDB client are not code of this repository.  The first
  is an argument of the embedded provider functions (`decimalParseFloat` is the instance
  used on concrete inputs), the second is a function from queries to answers stored in the
  client.
* A Go `error` is `Option String` (`none` is `nil`), or the kind of a `*strconv.NumError`.
  A run-time panic and `log.Fatal` are explicit outcomes.
* The goroutine that clears `startup` after two seconds is an event `Event.timer` in the
  input of the scan loop: the flag is read once per iteration, so the timer fires before
  or after that read.  A send on `readingChannel` is recorded in the order of the sends.
  Log output is not recorded, and the test of `scanner.Err()` inside the loop, which
  cannot fire after a successful `Scan`, is left out.
-/

namespace Defluxio

/-! ## Go runtime -/

/-- Run-time panics that the embedded statements can raise. -/
inductive Panic where
  | indexOutOfRange (index length : Nat)
  | typeAssertion
  deriving DecidableEq

/-- How a Go function call ends: it returns, panics, or `log.Fatal` exits the process. -/
inductive Outcome (α : Type) where
  | ret (a : α)
  | panic (p : Panic)
  | fatal
  deriving DecidableEq

/-- The two kinds of `*strconv.NumError`: `ErrSyntax` and `ErrRange`. -/
inductive NumError where
  | invalid
  | range
  deriving DecidableEq

/-- Equality of results in `Except` is decidable. -/
instance decEqExcept {ε α : Type} [DecidableEq ε] [DecidableEq α] :
    DecidableEq (Except ε α)
  | .ok a, .ok b =>
    if h : a = b then isTrue (congrArg Except.ok h)
    else isFalse (fun h2 => h (Except.ok.inj h2))
  | .error a, .error b =>
    if h : a = b then isTrue (congrArg Except.error h)
    else isFalse (fun h2 => h (Except.error.inj h2))
  | .ok _, .error _ => isFalse (fun h => Except.noConfusion h)
  | .error _, .ok _ => isFalse (fun h => Except.noConfusion h)

/-- Go `s[i]` on a slice: the element, or the index-out-of-range panic. -/
def index {α : Type} (s : List α) (i : Nat) : Except Panic α :=
  match s.get? i with
  | some a => .ok a
  | none => .error (.indexOutOfRange i s.length)

/-- Fields of a character sequence between occurrences of `sep`. -/
def splitChars (sep : Char) : List Char → List (List Char)
  | [] => [[]]
  | c :: cs =>
    if c = sep then [] :: splitChars sep cs
    else
      match splitChars sep cs with
      | [] => [[c]]
      | f :: fs => (c :: f) :: fs

/-- Go `strings.Split(s, sep)` for a one-character separator. -/
def strings_Split (s : String) (sep : Char) : List String :=
  (splitChars sep s.toList).map String.mk

/-- Go `float64`: a finite value, given by the rational number it denotes, NaN, or an
infinity. -/
inductive F64 where
  | fin (q : ℚ)
  | nan
  | posInf
  | negInf
  deriving DecidableEq

/-- Go `x < y` on `float64`: false as soon as one side is NaN. -/
def F64.lt : F64 → F64 → Bool
  | .fin a, .fin b => decide (a < b)
  | .fin _, .posInf => true
  | .negInf, .fin _ => true
  | .negInf, .posInf => true
  | _, _ => false

/-- Go `x - y` on `float64`: NaN when a side is NaN or the infinities cancel. -/
def F64.sub : F64 → F64 → F64
  | .fin a, .fin b => .fin (a - b)
  | .fin _, .posInf => .negInf
  | .fin _, .negInf => .posInf
  | .posInf, .fin _ => .posInf
  | .posInf, .negInf => .posInf
  | .negInf, .fin _ => .negInf
  | .negInf, .posInf => .negInf
  | _, _ => .nan

/-- Go `math.Abs`. -/
def math_Abs : F64 → F64
  | .fin q => .fin (if q < 0 then -q else q)
  | .nan => .nan
  | _ => .posInf

/-! ## The provider: `serial_read_readings` -/

/-- The local variables `lastfrequency` and `startup` of `serial_read_readings`. -/
structure ValidationState where
  lastfrequency : F64
  startup : Bool
  deriving DecidableEq

/-- What the scan loop reacts to: a line delivered by `scanner.Scan()`, or the two-second
timer firing (the goroutine then executes `startup = false`). -/
inductive Event where
  | line (text : String)
  | timer
  deriving DecidableEq

/-- The body of `for scanner.Scan()` (main.go, lines 51-85) for one line: the state after
the iteration and the value sent on `readingChannel`, if any; or the panic that ends it. -/
def loopBody (ParseFloat : String → Nat → F64 × Option NumError) (SpikeThreshold : ℚ)
    (st : ValidationState) (line : String) : Except Panic (ValidationState × Option F64) := do
  let elements := strings_Split line ';'
  let e0 ← index elements 0
  if e0 = "F" then
    let e1 ← index elements 1
    match ParseFloat e1 32 with
    | (_, some _) => pure (st, none)
    | (frequency, none) =>
      if frequency.lt (.fin 48) || (F64.fin 52).lt frequency then pure (st, none)
      else if st.startup then pure ({ st with lastfrequency := frequency }, none)
      else if (math_Abs (st.lastfrequency.sub frequency)).lt (.fin SpikeThreshold) then
        pure ({ st with lastfrequency := frequency }, some frequency)
      else pure ({ st with lastfrequency := frequency }, none)
  else if e0 = "I" then pure (st, none)
  else pure (st, none)

/-- A run of the scan loop: the values sent on `readingChannel` in order, the final local
state, and the panic that ended the run, if one did. -/
structure Run where
  sent : List F64
  state : ValidationState
  panicked : Option Panic
  deriving DecidableEq

/-- The scan loop from a given local state. -/
def scanLoop (ParseFloat : String → Nat → F64 × Option NumError) (SpikeThreshold : ℚ) :
    ValidationState → List Event → Run
  | st, [] => { sent := [], state := st, panicked := none }
  | st, .timer :: es => scanLoop ParseFloat SpikeThreshold { st with startup := false } es
  | st, .line l :: es =>
    match loopBody ParseFloat SpikeThreshold st l with
    | .error p => { sent := [], state := st, panicked := some p }
    | .ok (st1, out) =>
      let r := scanLoop ParseFloat SpikeThreshold st1 es
      { r with sent := out.toList ++ r.sent }

/-- Go `serial_read_readings`: `lastfrequency := 0.0`, `startup := true`, then the scan
loop. -/
def serial_read_readings (ParseFloat : String → Nat → F64 × Option NumError)
    (SpikeThreshold : ℚ) (events : List Event) : Run :=
  scanLoop ParseFloat SpikeThreshold { lastfrequency := .fin 0, startup := true } events

/-! ### A decimal instance of `strconv.ParseFloat` -/

/-- Value of a run of decimal digits. -/
def digitsValue (cs : List Char) : Nat :=
  cs.foldl (fun n c => 10 * n + (c.toNat - 48)) 0

/-- Strip one leading sign; the flag tells whether it was a minus. -/
def splitSign : List Char → Bool × List Char
  | '-' :: cs => (true, cs)
  | '+' :: cs => (false, cs)
  | cs => (false, cs)

/-- A decimal literal `[sign] digits [. digits] [(e|E) [sign] digits]` as sign, numerator
and denominator of its exact value; `none` when the text is not of that form. -/
def readDecimal (s : String) : Option (Bool × Nat × Nat) :=
  let (neg, body) := splitSign s.toList
  let (mant, ex) := body.span (fun c => c != 'e' && c != 'E')
  let (ip, fp0) := mant.span (fun c => c != '.')
  let fp := fp0.drop 1
  let (eneg, ed) := splitSign (ex.drop 1)
  if (ip ++ fp).isEmpty || !(ip ++ fp).all Char.isDigit then none
  else if !ex.isEmpty && (ed.isEmpty || !ed.all Char.isDigit) then none
  else
    let m := digitsValue (ip ++ fp)
    let e := digitsValue ed
    if eneg then some (neg, m, 10 ^ (fp.length + e))
    else some (neg, m * 10 ^ e, 10 ^ fp.length)

/-- Bring `num / den` into `[2^(p-1), 2^p)` by doubling one side, tracking the binary
exponent `s` with `value = (num / den) * 2^s`; stops at the exponent bounds. -/
def normalise (p : Nat) (smin smax : Int) : Nat → Nat → Nat → Int → Nat × Nat × Int
  | 0, num, den, s => (num, den, s)
  | fuel + 1, num, den, s =>
    if den * 2 ^ p ≤ num ∧ s < smax then normalise p smin smax fuel num (2 * den) (s + 1)
    else if num < den * 2 ^ (p - 1) ∧ smin < s then
      normalise p smin smax fuel (2 * num) den (s - 1)
    else (num, den, s)

/-- Quotient rounded to nearest, ties to even. -/
def roundDiv (num den : Nat) : Nat :=
  let q := num / den
  let r := num % den
  if 2 * r < den then q
  else if den < 2 * r then q + 1
  else if q % 2 = 0 then q else q + 1

/-- Nearest binary floating-point number with a `p`-bit significand and `w` exponent bits
to the positive rational `num / den`; `none` on overflow. -/
def roundBinary (p w : Nat) (num den : Nat) : Option ℚ :=
  let bias : Int := 2 ^ (w - 1) - 1
  let smin : Int := 1 - bias - (p - 1)
  let smax : Int := bias - (p - 1) + 1
  let (n, d, s) := normalise p smin smax (2 ^ (w + 1)) num den 0
  let m := roundDiv n d
  let v : ℚ := (m : ℚ) * 2 ^ s
  if (2 : ℚ) ^ (bias + 1) ≤ v then none else some v

/-- Whether `s` is one of `names`, letter case ignored. -/
def isOneOf (s : String) (names : List String) : Bool :=
  names.any fun n => s.toList.map Char.toLower = n.toList

/-- Go `strconv.ParseFloat(s, bitSize)` on the special values and on decimal literals:
`nan`, and `inf` or `infinity` with an optional sign, in any letter case, give NaN and the
infinities with a nil error; a decimal literal gives the nearest `float32`
(`bitSize = 32`) or `float64`, or an infinity and a range error beyond the largest one.
Other texts are rejected here. -/
def decimalParseFloat (s : String) (bitSize : Nat) : F64 × Option NumError :=
  if isOneOf s ["nan"] then (.nan, none)
  else if isOneOf s ["inf", "+inf", "infinity", "+infinity"] then (.posInf, none)
  else if isOneOf s ["-inf", "-infinity"] then (.negInf, none)
  else
    match readDecimal s with
    | none => (.fin 0, some .invalid)
    | some (neg, num, den) =>
      if num = 0 then (.fin 0, none)
      else
        match (if bitSize = 32 then roundBinary 24 8 num den
          else roundBinary 53 11 num den) with
        | none => (if neg then .negInf else .posInf, some .range)
        | some v => (.fin (if neg then -v else v), none)

/-- Scenario A: the timer has fired before the first line (warmup inactive for all three
lines), then the three records arrive. -/
def scenarioA : List Event :=
  [.timer, .line "F;49.9", .line "F;61.0", .line "F;49.91"]

/-- The `float32` nearest to 49.9, the value `strconv.ParseFloat("49.9", 32)` returns
(49.900001525878906). -/
def f49_9 : ℚ := 13080986 / 262144

/-- The `float32` nearest to 49.91, the value `strconv.ParseFloat("49.91", 32)` returns
(49.909999847412110). -/
def f49_91 : ℚ := 13083607 / 262144

/-! ## The time-series client: `database.go` -/

/-- Go `time.Time`: seconds since the Unix epoch and nanoseconds within the second. -/
structure Time where
  sec : Int
  nsec : Nat
  deriving DecidableEq

/-- Go `t.Unix()`. -/
def Time.Unix (t : Time) : Int := t.sec

/-- Go `time.Unix(sec, nsec)`. -/
def time_Unix (sec nsec : Int) : Time :=
  { sec := sec + nsec / 1000000000, nsec := (nsec % 1000000000).toNat }

/-- The zero `time.Time` (January 1, year 1). -/
def Time.zero : Time := { sec := -62135596800, nsec := 0 }

/-- Modelled from the spec: the type `Reading`, declared outside the two source files,
is `{timestamp: instant, value: float64}`; the literal `Reading{timestamp, freq}` of
`points2meterreadings` fixes the order of the fields. -/
structure Reading where
  Timestamp : Time
  Value : ℚ
  deriving DecidableEq

/-- Go `MeterReading`. -/
structure MeterReading where
  MeterID : String
  Reading : Reading
  deriving DecidableEq

/-- The zero value `MeterReading{}`. -/
def MeterReading.zero : MeterReading :=
  { MeterID := "", Reading := { Timestamp := Time.zero, Value := 0 } }

/-- Go `strconv.ParseInt(s, 10, 64)`: the value and the error.  A text that is not an
optional sign followed by decimal digits gives `0` and a syntax error; a value outside
`int64` is clamped and reported as a range error. -/
def ParseInt (s : String) : Int × Option NumError :=
  let (neg, ds) := splitSign s.toList
  if ds.isEmpty || !ds.all Char.isDigit then (0, some .invalid)
  else
    let un := digitsValue ds
    if !neg && 2 ^ 63 ≤ un then (2 ^ 63 - 1, some .range)
    else if neg && 2 ^ 63 < un then (-(2 ^ 63), some .range)
    else (if neg then -(un : Int) else (un : Int), none)

/-- Go `json.Number`, given by what its methods `Int64()` and `Float64()` return. -/
structure json_Number where
  Int64 : Int × Option NumError
  Float64 : ℚ × Option NumError
  deriving DecidableEq

/-- The `json.Number` holding the text `s` of a JSON number (for a number beyond the
`float64` range `Float64()` returns an infinity with the error; here it is 0). -/
def json_Number.ofText (s : String) : json_Number :=
  { Int64 := ParseInt s,
    Float64 :=
      match decimalParseFloat s 64 with
      | (.fin v, e) => (v, e)
      | (_, e) => (0, e) }

/-- An `interface{}` cell of a result row, as the client decodes JSON with `UseNumber`. -/
inductive Cell where
  | number (n : json_Number)
  | str (s : String)
  | bool (b : Bool)
  | null
  | nested
  deriving DecidableEq

/-- Go `v.(json.Number)`: the type assertion without the comma-ok form. -/
def Cell.assertNumber : Cell → Except Panic json_Number
  | .number n => .ok n
  | _ => .error .typeAssertion

/-- InfluxDB `models.Row`. -/
structure Row where
  Name : String
  Columns : List String
  Values : List (List Cell)
  deriving DecidableEq

/-- InfluxDB `client.Result`. -/
structure Result where
  Series : List Row
  Err : String
  deriving DecidableEq

/-- InfluxDB `client.Response`. -/
structure Response where
  Results : List Result
  Err : String
  deriving DecidableEq

/-- InfluxDB `(*Response).Error()`: the error of the response, else the first error of a
result, else `nil`. -/
def Response.Error (r : Response) : Option String :=
  if r.Err ≠ "" then some r.Err
  else (r.Results.find? (fun result => result.Err ≠ "")).map (fun result => result.Err)

/-- InfluxDB `client.Query`. -/
structure Query where
  Command : String
  Database : String
  deriving DecidableEq

/-- A field value of a point. -/
inductive FieldValue where
  | float (v : ℚ)
  | int (n : Int)
  deriving DecidableEq

/-- InfluxDB `client.Point` as built by `client.NewPoint(name, tags, fields, t)`. -/
structure Point where
  name : String
  tags : List (String × String)
  fields : List (String × FieldValue)
  time : Time
  deriving DecidableEq

/-- InfluxDB `client.BatchPoints`. -/
structure BatchPoints where
  Database : String
  Precision : String
  points : List Point
  deriving DecidableEq

/-- Modelled from the spec: the type `InfluxDBConfig`, declared outside the two source
files, holds the store connection parameters (host, port, credentials, database name);
the field names are those `database.go` reads. -/
structure InfluxDBConfig where
  Host : String
  Port : Nat
  User : String
  Pass : String
  Database : String
  deriving DecidableEq

/-- Go `DBClient`.  The InfluxDB client is the answer of the store to each query: a
transport error or a response. -/
structure DBClient where
  client : Query → Except String Response
  serverconfig : InfluxDBConfig

/-- A call made to the store. -/
inductive StoreCall where
  | query (q : Query)
  | write (bp : BatchPoints)
  deriving DecidableEq

/-- The channel `dbchannel` as seen by its receiver: the readings sent on it that are
still to be received, and whether the sender closes it after them. -/
structure Chan where
  queue : List MeterReading
  closed : Bool
  deriving DecidableEq

/-- Go `v, ok := <-ch`: the received value, `ok`, and the channel afterwards; `none` when
the receive blocks for good (nothing left and the channel stays open). -/
def Chan.recv (ch : Chan) : Option (MeterReading × Bool × Chan) :=
  match ch.queue with
  | x :: rest => some (x, true, { ch with queue := rest })
  | [] => if ch.closed then some (MeterReading.zero, false, ch) else none

/-- How a run of the pusher function ends. -/
inductive PusherEnd where
  | blocked
  | fatal
  | running
  deriving DecidableEq

/-- A run of the pusher function: the batches handed to `dbc.client.Write`, in order, and
how the run ends (`running`: the iteration budget of the model was used up). -/
structure PusherRun where
  writes : List BatchPoints
  ending : PusherEnd
  deriving DecidableEq

/-- The batch built in one iteration of the pusher (database.go, lines 100-115): one
point, named after the database, tagged with the meter and carrying the value and the Unix
timestamp of the reading; `now` is `time.Now()`.  `client.NewPoint` does not fail on
these fields when the value is finite. -/
def batchFor (dbc : DBClient) (now : Time) (meterreading : MeterReading) : BatchPoints :=
  let tags := [("meterid", meterreading.MeterID)]
  let fields := [("value", FieldValue.float meterreading.Reading.Value),
    ("timestamp", FieldValue.int meterreading.Reading.Timestamp.Unix)]
  let pt : Point :=
    { name := dbc.serverconfig.Database, tags := tags, fields := fields, time := now }
  { Database := dbc.serverconfig.Database, Precision := "ms", points := [pt] }

/-- The `for` loop of the function returned by `MkDBPusher` (database.go, lines 89-120).
`i` counts the iterations and `clock i` is `time.Now()` in iteration `i`. -/
def pusherLoop (dbc : DBClient) (clock : Nat → Time) : Nat → Nat → Chan → PusherRun
  | 0, _, _ => { writes := [], ending := .running }
  | fuel + 1, i, ch =>
    match ch.recv with
    | none => { writes := [], ending := .blocked }
    | some (_, _, ch1) =>
      match ch1.recv with
      | none => { writes := [], ending := .blocked }
      | some (meterreading, ok, ch2) =>
        if !ok then { writes := [], ending := .fatal }
        else
          let bp := batchFor dbc (clock i) meterreading
          let r := pusherLoop dbc clock fuel (i + 1) ch2
          { r with writes := bp :: r.writes }

/-- The function returned by `MkDBPusher`, run on a channel. -/
def pusher (dbc : DBClient) (clock : Nat → Time) (dbchannel : Chan) : PusherRun :=
  pusherLoop dbc clock (dbchannel.queue.length + 1) 0 dbchannel

/-- The search of `MkDBPusher` (database.go, lines 67-82) for the configured database in
the answer to `SHOW DATABASES`. -/
def foundDatabase (Database : String) (Results : List Result) : Bool :=
  Results.any fun result =>
    result.Series.any fun row =>
      row.Name = "databases" &&
        row.Values.any fun values => values.any fun database => database = Cell.str Database

/-- What a call of `MkDBPusher` does: the calls it makes to the store, and its outcome,
the pair of the pusher function (or `nil`) and the error. -/
structure MkDBPusherRun where
  calls : List StoreCall
  outcome : Outcome (Option (Chan → PusherRun) × Option String)

/-- Go `DBClient.MkDBPusher`. -/
def MkDBPusher (dbc : DBClient) (clock : Nat → Time) : MkDBPusherRun :=
  let q : Query := { Command := "SHOW DATABASES", Database := dbc.serverconfig.Database }
  { calls := [.query q],
    outcome :=
      match dbc.client q with
      | .error _ => .fatal
      | .ok response =>
        match response.Error with
        | some e => .ret (none, some ("Cannot retrieve list of InfluxDB databases: " ++ e))
        | none =>
          if !foundDatabase dbc.serverconfig.Database response.Results then .fatal
          else .ret (some (pusher dbc clock), none) }

/-- The inner loop body of `points2meterreadings` for one row of values. -/
def rowReading (name : String) (v : List Cell) : Except Panic MeterReading := do
  let json_timestamp ← (← index v 1).assertNumber
  let int_timestamp := json_timestamp.Int64.1
  let timestamp := time_Unix int_timestamp 0
  let json_freq ← (← index v 2).assertNumber
  let freq := json_freq.Float64.1
  pure { MeterID := name, Reading := { Timestamp := timestamp, Value := freq } }

/-- The inner loop of `points2meterreadings`, `for _, v := range row.Values`: the readings
appended for one series. -/
def decodeValues (name : String) : List (List Cell) → Except Panic (List MeterReading)
  | [] => pure []
  | v :: vs => do
    let reading ← rowReading name v
    let readings ← decodeValues name vs
    pure (reading :: readings)

/-- The outer loop of `points2meterreadings`, `for _, row := range res[0].Series`. -/
def decodeSeries (name : String) : List Row → Except Panic (List MeterReading)
  | [] => pure []
  | row :: rows => do
    let first ← decodeValues name row.Values
    let others ← decodeSeries name rows
    pure (first ++ others)

/-- Go `DBClient.points2meterreadings`. -/
def points2meterreadings (name : String) (res : List Result) :
    Except Panic (List MeterReading) := do
  let res0 ← index res 0
  decodeSeries name res0.Series

/-- Go `%d` of an integer. -/
def fmtInt (n : Int) : String := toString n

/-- The query text of `GetFrequenciesBetween`. -/
def betweenCommand (Database meterID : String) (start stop : Time) : String :=
  "select timestamp, value from " ++ Database ++ " where meterid = \x27" ++ meterID ++
    "\x27 and timestamp > " ++ fmtInt start.Unix ++ " and timestamp < " ++ fmtInt stop.Unix

/-- The query text of `GetLastFrequencies`. -/
def lastCommand (Database meterID : String) (amount : Int) : String :=
  "select timestamp, value from " ++ Database ++ " where meterid= \x27" ++ meterID ++
    "\x27 order by time desc limit " ++ fmtInt amount

/-- Go `DBClient.GetFrequenciesBetween`.  The result `retval` is `nil` until it is
assigned; a transport error of the query is logged and `retval, nil` is returned. -/
def GetFrequenciesBetween (dbc : DBClient) (meterID : String) (start stop : Time) :
    Outcome (List MeterReading × Option String) :=
  let querystr := betweenCommand dbc.serverconfig.Database meterID start stop
  let q : Query := { Command := querystr, Database := dbc.serverconfig.Database }
  match dbc.client q with
  | .ok response =>
    match response.Error with
    | some e => .ret ([], some e)
    | none =>
      match points2meterreadings meterID response.Results with
      | .error p => .panic p
      | .ok retval => .ret (retval, none)
  | .error _ => .ret ([], none)

/-- Go `DBClient.GetLastFrequencies`.  `retval` starts as the empty slice; a transport
error of the query is logged and `retval, nil` is returned. -/
def GetLastFrequencies (dbc : DBClient) (meterID : String) (amount : Int) :
    Outcome (List MeterReading × Option String) :=
  let querystr := lastCommand dbc.serverconfig.Database meterID amount
  let q : Query := { Command := querystr, Database := dbc.serverconfig.Database }
  match dbc.client q with
  | .ok response =>
    match response.Error with
    | some e => .ret ([], some e)
    | none =>
      match points2meterreadings meterID response.Results with
      | .error p => .panic p
      | .ok retval => .ret (retval, none)
  | .error _ => .ret ([], none)

/-- Go `DBClient.GetLastFrequency`. -/
def GetLastFrequency (dbc : DBClient) (meterID : String) :
    Outcome (MeterReading × Option String) :=
  match GetLastFrequencies dbc meterID 1 with
  | .panic p => .panic p
  | .fatal => .fatal
  | .ret (readings, error) =>
    match error with
    | some e => .ret (MeterReading.zero, some e)
    | none =>
      match index readings 0 with
      | .error p => .panic p
      | .ok r => .ret (r, none)

/-! ### A store for the round trip and for the examples -/

/-- The number the store returns for an integer field. -/
def json_Number.ofInt (n : Int) : json_Number :=
  { Int64 := (n, none), Float64 := (n, none) }

/-- The number the store returns for a float field. -/
def json_Number.ofFloat (v : ℚ) : json_Number :=
  { Int64 := if v.den = 1 then (v.num, none) else (0, some .invalid), Float64 := (v, none) }

/-- The cell the store returns for a field value. -/
def FieldValue.toCell : FieldValue → Cell
  | .float v => .number (.ofFloat v)
  | .int n => .number (.ofInt n)

/-- The tag `meterid` of a point. -/
def Point.meterid (pt : Point) : String := (pt.tags.lookup "meterid").getD ""

/-- The point with the greatest time; among equal times the one written last. -/
def latestPoint : List Point → Option Point
  | [] => none
  | pt :: rest =>
    match latestPoint rest with
    | none => some pt
    | some best =>
      if best.time.sec < pt.time.sec ∨
        (best.time.sec = pt.time.sec ∧ best.time.nsec < pt.time.nsec) then some pt
      else some best

/-- The answer that holds no series. -/
def emptyAnswer : Response := { Results := [{ Series := [], Err := "" }], Err := "" }

/-- The store of the round-trip property: it holds the batches written so far and the
database `Database`.  It answers `SHOW DATABASES` with its catalog, and the query of
`GetLastFrequencies(meterID, 1)` with the latest point of that meter as one row
`[time, timestamp, value]`; a meter without points gets an answer without series. -/
def storeClient (Database : String) (written : List BatchPoints) (q : Query) :
    Except String Response :=
  if q.Command = "SHOW DATABASES" then
    .ok { Results := [{ Series := [{ Name := "databases", Columns := ["name"],
                                     Values := [[.str Database]] }], Err := "" }],
          Err := "" }
  else
    let pts := (written.map fun bp => bp.points).flatten
    match pts.find? (fun pt => q.Command = lastCommand Database pt.meterid 1) with
    | none => .ok emptyAnswer
    | some hit =>
      match latestPoint (pts.filter fun pt => pt.meterid = hit.meterid) with
      | none => .ok emptyAnswer
      | some pt =>
        .ok { Results := [{ Series := [{ Name := pt.name,
                                         Columns := ["time", "timestamp", "value"],
                                         Values := [[.number (.ofInt pt.time.Unix),
                                           ((pt.fields.lookup "timestamp").map
                                             FieldValue.toCell).getD .null,
                                           ((pt.fields.lookup "value").map
                                             FieldValue.toCell).getD .null]] }],
                            Err := "" }],
              Err := "" }

/-- The round trip: a client on the empty store makes its pusher, the pusher runs on a
channel on which `r` is sent, and `GetLastFrequency(r.MeterID)` then asks the store that
holds what the pusher wrote. -/
def roundTrip (serverconfig : InfluxDBConfig) (clock : Nat → Time) (r : MeterReading) :
    Outcome (MeterReading × Option String) :=
  let dbc : DBClient :=
    { client := storeClient serverconfig.Database [], serverconfig := serverconfig }
  match (MkDBPusher dbc clock).outcome with
  | .ret (some push, _) =>
    let run := push { queue := [r], closed := false }
    GetLastFrequency
      { client := storeClient serverconfig.Database run.writes, serverconfig := serverconfig }
      r.MeterID
  | .ret (none, _) => .fatal
  | .panic p => .panic p
  | .fatal => .fatal

/-- A configuration for the examples. -/
def exampleConfig : InfluxDBConfig :=
  { Host := "localhost", Port := 8086, User := "defluxio", Pass := "secret",
    Database := "frequency" }

/-- A client whose store answers every query with `response`. -/
def answering (response : Response) : DBClient :=
  { client := fun _ => .ok response, serverconfig := exampleConfig }

/-- An answer with one series holding the given rows. -/
def oneSeries (name : String) (rows : List (List Cell)) : Response :=
  { Results := [{ Series := [{ Name := name, Columns := ["time", "timestamp", "value"],
                               Values := rows }], Err := "" }], Err := "" }

/-- A row whose timestamp column holds `1.5e9`, a JSON number that `Int64()` rejects. -/
def fractionalRow : List Cell :=
  [.str "2016-01-01T00:00:00Z", .number (.ofText "1.5e9"), .number (.ofText "50.25")]

/-- A row whose timestamp and value columns convert. -/
def plainRow : List Cell :=
  [.str "2016-01-01T00:00:00Z", .number (.ofText "1451606400"), .number (.ofText "50.25")]

/-! ## Properties of the provider -/

theorem math_Abs_fin (q : ℚ) : math_Abs (.fin q) = .fin |q| := by
  show F64.fin (if q < 0 then -q else q) = .fin |q|
  split_ifs with h
  · rw [abs_of_neg h]
  · rw [abs_of_nonneg (not_lt.mp h)]

/-- The spike test of the loop body on finite values. -/
theorem spike_test_fin (a b thr : ℚ) :
    (math_Abs ((F64.fin a).sub (.fin b))).lt (.fin thr) = decide (|a - b| < thr) := by
  show (math_Abs (.fin (a - b))).lt (.fin thr) = decide (|a - b| < thr)
  rw [math_Abs_fin]
  rfl

/-- The range test of the loop body lets a finite value of `[48, 52]` through. -/
theorem range_test_fin (c : ℚ) (hc : 48 ≤ c ∧ c ≤ 52) :
    ((F64.fin c).lt (.fin 48) || (F64.fin 52).lt (.fin c)) = false := by
  have h1 : ¬ c < 48 := not_lt.mpr hc.1
  have h2 : ¬ 52 < c := not_lt.mpr hc.2
  simp [F64.lt, h1, h2]

/-- The loop body on a frequency record whose field 1 parses to `c`. -/
theorem loopBody_frequency (ParseFloat : String → Nat → F64 × Option NumError) (thr : ℚ)
    (st : ValidationState) (line f : String) (rest : List String) (c : F64)
    (hl : strings_Split line ';' = "F" :: f :: rest) (hf : ParseFloat f 32 = (c, none)) :
    loopBody ParseFloat thr st line =
      .ok (if (c.lt (.fin 48) || (F64.fin 52).lt c) = true then (st, none)
        else if st.startup = true then ({ st with lastfrequency := c }, none)
        else if (math_Abs (st.lastfrequency.sub c)).lt (.fin thr) = true then
          ({ st with lastfrequency := c }, some c)
        else ({ st with lastfrequency := c }, none)) := by
  simp only [loopBody, hl, index, List.get?, bind, Except.bind, hf, pure, Except.pure,
    if_true]
  split_ifs <;> rfl

/-- The loop body on a frequency record whose field 1 does not parse. -/
theorem loopBody_broken (ParseFloat : String → Nat → F64 × Option NumError) (thr : ℚ)
    (st : ValidationState) (line f : String) (rest : List String) (c : F64) (e : NumError)
    (hl : strings_Split line ';' = "F" :: f :: rest) (hf : ParseFloat f 32 = (c, some e)) :
    loopBody ParseFloat thr st line = .ok (st, none) := by
  simp only [loopBody, hl, index, List.get?, bind, Except.bind, hf, pure, Except.pure,
    if_true]

/-- The loop body, once warmup has ended, on a record with a finite in-range candidate. -/
theorem loopBody_in_range_after_warmup
    (ParseFloat : String → Nat → F64 × Option NumError) (thr : ℚ)
    (st : ValidationState) (line f : String) (rest : List String) (c : ℚ)
    (hl : strings_Split line ';' = "F" :: f :: rest) (hf : ParseFloat f 32 = (.fin c, none))
    (hc : 48 ≤ c ∧ c ≤ 52) (hst : st.startup = false) :
    loopBody ParseFloat thr st line =
      .ok ({ lastfrequency := .fin c, startup := false },
        if (math_Abs (st.lastfrequency.sub (.fin c))).lt (.fin thr) = true
        then some (.fin c) else none) := by
  rw [loopBody_frequency ParseFloat thr st line f rest (.fin c) hl hf, range_test_fin c hc,
    hst]
  simp only [Bool.false_eq_true, if_false]
  split_ifs <;> rfl

/-- One scan-loop step on a line whose loop body returns. -/
theorem scanLoop_line (ParseFloat : String → Nat → F64 × Option NumError) (thr : ℚ)
    (st st1 : ValidationState) (l : String) (out : Option F64) (es : List Event)
    (h : loopBody ParseFloat thr st l = .ok (st1, out)) :
    scanLoop ParseFloat thr st (.line l :: es) =
      { scanLoop ParseFloat thr st1 es with
        sent := out.toList ++ (scanLoop ParseFloat thr st1 es).sent } := by
  simp only [scanLoop, h]

/-- The latest element of a filtered list, with a default. -/
theorem getLast_filter_cons {α : Type} (p : α → Bool) (c d : α) (cs : List α) :
    (((c :: cs).filter p).getLast?).getD d =
      ((cs.filter p).getLast?).getD (if p c then c else d) := by
  by_cases hc : p c = true
  · rw [List.filter_cons_of_pos hc, if_pos hc]
    cases hcs : cs.filter p with
    | nil => simp
    | cons x xs =>
      have hy := List.getLast?_eq_getLast (x :: xs) (List.cons_ne_nil x xs)
      have hz := List.getLast?_eq_getLast (c :: x :: xs) (List.cons_ne_nil c (x :: xs))
      rw [hy, hz]
      simp
  · rw [List.filter_cons_of_neg hc, if_neg hc]

/-- C1 (spike check).  Two frequency records whose candidates `a` then `b` are finite and
in range are processed one after the other once warmup has ended, from any state.  After
the first, `lastfrequency` is `a`.  The second sends `b` on `readingChannel` exactly when
`|a - b|` is below the spike threshold, and in both cases `lastfrequency` is `b`
afterwards. -/
theorem serial_read_readings_spike_check
    (ParseFloat : String → Nat → F64 × Option NumError) (SpikeThreshold : ℚ)
    (st : ValidationState) (la lb fa fb : String) (ra rb : List String) (a b : ℚ)
    (hla : strings_Split la ';' = "F" :: fa :: ra)
    (hfa : ParseFloat fa 32 = (.fin a, none))
    (hlb : strings_Split lb ';' = "F" :: fb :: rb)
    (hfb : ParseFloat fb 32 = (.fin b, none))
    (ha : 48 ≤ a ∧ a ≤ 52) (hb : 48 ≤ b ∧ b ≤ 52) (hst : st.startup = false) :
    ∃ st1 outa st2 outb,
      loopBody ParseFloat SpikeThreshold st la = .ok (st1, outa) ∧
      st1.lastfrequency = .fin a ∧ st1.startup = false ∧
      loopBody ParseFloat SpikeThreshold st1 lb = .ok (st2, outb) ∧
      (outb = some (.fin b) ↔ |a - b| < SpikeThreshold) ∧
      (outb = none ↔ ¬ |a - b| < SpikeThreshold) ∧
      st2.lastfrequency = .fin b ∧ st2.startup = false := by
  have h1 := loopBody_in_range_after_warmup ParseFloat SpikeThreshold st la fa ra a
    hla hfa ha hst
  have h2 := loopBody_in_range_after_warmup ParseFloat SpikeThreshold
    { lastfrequency := .fin a, startup := false } lb fb rb b hlb hfb hb rfl
  rw [spike_test_fin] at h2
  refine ⟨_, _, _, _, h1, rfl, rfl, h2, ?_, ?_, rfl, rfl⟩
  · by_cases hs : |a - b| < SpikeThreshold <;> simp [hs]
  · by_cases hs : |a - b| < SpikeThreshold <;> simp [hs]

/-- C2 (range check).  A frequency record whose candidate is below 48 or above 52 (an
infinity included) is dropped in every validation state: the loop body sends nothing and
returns the state it was given, so the scan loop goes on with the next event as if the
line had not been there. -/
theorem serial_read_readings_range_check
    (ParseFloat : String → Nat → F64 × Option NumError) (SpikeThreshold : ℚ)
    (st : ValidationState) (line f : String) (rest : List String) (c : F64)
    (es : List Event)
    (hl : strings_Split line ';' = "F" :: f :: rest) (hf : ParseFloat f 32 = (c, none))
    (hc : c.lt (.fin 48) = true ∨ (F64.fin 52).lt c = true) :
    loopBody ParseFloat SpikeThreshold st line = .ok (st, none) ∧
    scanLoop ParseFloat SpikeThreshold st (.line line :: es) =
      scanLoop ParseFloat SpikeThreshold st es := by
  have h := loopBody_frequency ParseFloat SpikeThreshold st line f rest c hl hf
  have hc2 : (c.lt (.fin 48) || (F64.fin 52).lt c) = true := by
    rcases hc with h1 | h1 <;> simp [h1]
  rw [if_pos hc2] at h
  refine ⟨h, ?_⟩
  rw [scanLoop_line ParseFloat SpikeThreshold st st line none es h]
  simp

/-- Values of the decimal instance used in the examples. -/
theorem decimalParseFloat_examples :
    decimalParseFloat "49.9" 32 = (.fin f49_9, none) ∧
    decimalParseFloat "61.0" 32 = (.fin 61, none) ∧
    decimalParseFloat "49.91" 32 = (.fin f49_91, none) ∧
    decimalParseFloat "4x.9" 32 = (.fin 0, some .invalid) ∧
    decimalParseFloat "NaN" 32 = (.nan, none) := by
  refine ⟨?_, ?_, ?_, ?_, ?_⟩ <;> decide!

theorem serial_read_readings_spike_check_witness :
    strings_Split "F;49.9" ';' = "F" :: "49.9" :: [] ∧
    decimalParseFloat "49.9" 32 = (.fin f49_9, none) ∧
    strings_Split "F;49.91" ';' = "F" :: "49.91" :: [] ∧
    decimalParseFloat "49.91" 32 = (.fin f49_91, none) ∧
    (48 ≤ f49_9 ∧ f49_9 ≤ 52) ∧ (48 ≤ f49_91 ∧ f49_91 ≤ 52) ∧
    (ValidationState.mk (.fin 0) false).startup = false ∧
    ∃ st1 outa st2 outb,
      loopBody decimalParseFloat (1 / 2) (ValidationState.mk (.fin 0) false) "F;49.9"
        = .ok (st1, outa) ∧
      st1.lastfrequency = .fin f49_9 ∧ st1.startup = false ∧
      loopBody decimalParseFloat (1 / 2) st1 "F;49.91" = .ok (st2, outb) ∧
      (outb = some (.fin f49_91) ↔ |f49_9 - f49_91| < 1 / 2) ∧
      (outb = none ↔ ¬ |f49_9 - f49_91| < 1 / 2) ∧
      st2.lastfrequency = .fin f49_91 ∧ st2.startup = false :=
  ⟨by decide, decimalParseFloat_examples.1, by decide, decimalParseFloat_examples.2.2.1,
    by norm_num [f49_9], by norm_num [f49_91], rfl,
    serial_read_readings_spike_check decimalParseFloat (1 / 2)
      (ValidationState.mk (.fin 0) false)
      "F;49.9" "F;49.91" "49.9" "49.91" [] [] f49_9 f49_91
      (by decide) decimalParseFloat_examples.1 (by decide) decimalParseFloat_examples.2.2.1
      (by norm_num [f49_9]) (by norm_num [f49_91]) rfl⟩

theorem serial_read_readings_range_check_witness :
    strings_Split "F;61.0" ';' = "F" :: "61.0" :: [] ∧
    decimalParseFloat "61.0" 32 = (.fin 61, none) ∧
    ((F64.fin 61).lt (.fin 48) = true ∨ (F64.fin 52).lt (.fin 61) = true) ∧
    (loopBody decimalParseFloat (1 / 2) (ValidationState.mk (.fin f49_9) false) "F;61.0"
        = .ok (ValidationState.mk (.fin f49_9) false, none) ∧
      scanLoop decimalParseFloat (1 / 2) (ValidationState.mk (.fin f49_9) false)
          (.line "F;61.0" :: [.line "F;49.91"])
        = scanLoop decimalParseFloat (1 / 2) (ValidationState.mk (.fin f49_9) false)
          [.line "F;49.91"]) :=
  ⟨by decide, decimalParseFloat_examples.2.1, Or.inr (by decide!),
    serial_read_readings_range_check decimalParseFloat (1 / 2)
      (ValidationState.mk (.fin f49_9) false) "F;61.0" "61.0" [] (.fin 61)
      [.line "F;49.91"]
      (by decide) decimalParseFloat_examples.2.1 (Or.inr (by decide!))⟩

/-- What the warmup does.  While `startup` is true, a sequence of frequency records
processed before the timer fires sends nothing, leaves `startup` true, and leaves in
`lastfrequency` the latest candidate that the range test of the loop body lets through
(the old value when there is none). -/
theorem scanLoop_warmup
    (ParseFloat : String → Nat → F64 × Option NumError) (SpikeThreshold : ℚ)
    (st : ValidationState) (lines : List String) (cands : List F64)
    (hst : st.startup = true)
    (h : List.Forall₂ (fun line c => ∃ f rest,
      strings_Split line ';' = "F" :: f :: rest ∧ ParseFloat f 32 = (c, none)) lines cands) :
    (scanLoop ParseFloat SpikeThreshold st (lines.map Event.line)).sent = [] ∧
    (scanLoop ParseFloat SpikeThreshold st (lines.map Event.line)).panicked = none ∧
    (scanLoop ParseFloat SpikeThreshold st (lines.map Event.line)).state.startup = true ∧
    (scanLoop ParseFloat SpikeThreshold st (lines.map Event.line)).state.lastfrequency =
      ((cands.filter (fun c => !(c.lt (.fin 48) || (F64.fin 52).lt c))).getLast?).getD
        st.lastfrequency := by
  induction h generalizing st with
  | nil => exact ⟨rfl, rfl, hst, rfl⟩
  | @cons line c ls cs hlc _ ih =>
    obtain ⟨f, rest, hl, hf⟩ := hlc
    have hb := loopBody_frequency ParseFloat SpikeThreshold st line f rest c hl hf
    rw [hst] at hb
    simp only [if_true] at hb
    by_cases hc : (c.lt (.fin 48) || (F64.fin 52).lt c) = true
    · rw [if_pos hc] at hb
      obtain ⟨i1, i2, i3, i4⟩ := ih st hst
      rw [List.map_cons, scanLoop_line ParseFloat SpikeThreshold st _ line none _ hb]
      refine ⟨by simpa using i1, i2, i3, ?_⟩
      rw [getLast_filter_cons]
      simp only [i4]
      simp [hc]
    · rw [if_neg hc] at hb
      obtain ⟨i1, i2, i3, i4⟩ := ih { lastfrequency := c, startup := true } rfl
      rw [List.map_cons, scanLoop_line ParseFloat SpikeThreshold st _ line none _ hb]
      refine ⟨by simpa using i1, i2, i3, ?_⟩
      rw [getLast_filter_cons]
      simp only [i4]
      simp [hc]

/-- While `startup` is true, a frequency record whose field 1 parses to NaN is not
rejected by the range test: NaN is stored in `lastfrequency`, in every state. -/
theorem loopBody_warmup_NaN
    (ParseFloat : String → Nat → F64 × Option NumError) (SpikeThreshold : ℚ)
    (st : ValidationState) (line f : String) (rest : List String)
    (hl : strings_Split line ';' = "F" :: f :: rest) (hf : ParseFloat f 32 = (.nan, none))
    (hst : st.startup = true) :
    loopBody ParseFloat SpikeThreshold st line =
      .ok ({ lastfrequency := .nan, startup := true }, none) := by
  rw [loopBody_frequency ParseFloat SpikeThreshold st line f rest .nan hl hf, hst]
  rfl

/-- C4: the code at the failing input.  During warmup the records `F;49.9` and `F;NaN`
arrive.  Field 1 of the second parses to NaN without an error; NaN is neither below 48 nor
above 52, so the range test lets it through and it is stored.  Nothing is sent, but
`lastfrequency` ends as NaN and not as 49.9, the latest in-range candidate.  After the
timer has fired, the next plausible sample is then rejected by the spike test. -/
theorem serial_read_readings_warmup_keeps_NaN :
    decimalParseFloat "NaN" 32 = (.nan, none) ∧
    ((F64.nan).lt (.fin 48) || (F64.fin 52).lt .nan) = false ∧
    loopBody decimalParseFloat (1 / 2) { lastfrequency := .fin 0, startup := true } "F;49.9" =
      .ok ({ lastfrequency := .fin f49_9, startup := true }, none) ∧
    loopBody decimalParseFloat (1 / 2) { lastfrequency := .fin f49_9, startup := true }
        "F;NaN" =
      .ok ({ lastfrequency := .nan, startup := true }, none) ∧
    serial_read_readings decimalParseFloat (1 / 2) [.line "F;49.9", .line "F;NaN"] =
      { sent := [], state := { lastfrequency := .nan, startup := true },
        panicked := none } ∧
    serial_read_readings decimalParseFloat (1 / 2)
        [.line "F;49.9", .line "F;NaN", .timer, .line "F;49.91"] =
      { sent := [], state := { lastfrequency := .fin f49_91, startup := false },
        panicked := none } := by
  refine ⟨?_, ?_, ?_, ?_, ?_, ?_⟩ <;> decide!

/-- C3, as stated, fails.  In Scenario A, run from the initial state with the timer fired
before the first line, the values sent are not the samples 1 and 3: sample 1 (49.9) is not
sent at all. -/
theorem scenarioA_first_sample_not_forwarded :
    (serial_read_readings decimalParseFloat (1 / 2) scenarioA).sent ≠
      [.fin f49_9, .fin f49_91] ∧
    F64.fin f49_9 ∉ (serial_read_readings decimalParseFloat (1 / 2) scenarioA).sent ∧
    (serial_read_readings decimalParseFloat (1 / 2) scenarioA).sent.length = 1 := by
  decide!

/-- C3, amended.  In Scenario A (range [48, 52], spike threshold 0.5, timer fired before
the first line) exactly one value is sent, sample 3.  Sample 1 is in range but fails the
spike check against the initial `lastfrequency = 0.0` and only becomes `lastfrequency`;
sample 2 is rejected on range and leaves the state alone; sample 3 passes the spike check
against `lastfrequency = 49.9` and is sent. -/
theorem scenarioA_forwards_third_sample :
    serial_read_readings decimalParseFloat (1 / 2) scenarioA =
      { sent := [.fin f49_91], state := { lastfrequency := .fin f49_91, startup := false },
        panicked := none } ∧
    loopBody decimalParseFloat (1 / 2) { lastfrequency := .fin 0, startup := false }
        "F;49.9" =
      .ok ({ lastfrequency := .fin f49_9, startup := false }, none) ∧
    ¬ |(0 : ℚ) - f49_9| < 1 / 2 ∧
    loopBody decimalParseFloat (1 / 2) { lastfrequency := .fin f49_9, startup := false }
        "F;61.0" =
      .ok ({ lastfrequency := .fin f49_9, startup := false }, none) ∧
    loopBody decimalParseFloat (1 / 2) { lastfrequency := .fin f49_9, startup := false }
        "F;49.91" =
      .ok ({ lastfrequency := .fin f49_91, startup := false }, some (.fin f49_91)) ∧
    |f49_9 - f49_91| < 1 / 2 := by
  refine ⟨by decide!, by decide!, ?_, by decide!, by decide!, ?_⟩
  · norm_num [f49_9, abs_lt]
  · norm_num [f49_9, f49_91, abs_lt]

/-- C10: the code at the failing input.  A line that is just `F` has no field 1:
`elements[1]` panics with an index out of range in every state, whatever `ParseFloat` is,
and the scan loop ends there without processing the following lines. -/
theorem serial_read_readings_bare_F_panics
    (ParseFloat : String → Nat → F64 × Option NumError) (SpikeThreshold : ℚ)
    (st : ValidationState) (es : List Event) :
    strings_Split "F" ';' = ["F"] ∧
    loopBody ParseFloat SpikeThreshold st "F" = .error (.indexOutOfRange 1 1) ∧
    scanLoop ParseFloat SpikeThreshold st (.line "F" :: es) =
      { sent := [], state := st, panicked := some (.indexOutOfRange 1 1) } := by
  have hs : strings_Split "F" ';' = ["F"] := by decide
  have hb : loopBody ParseFloat SpikeThreshold st "F" = .error (.indexOutOfRange 1 1) := by
    simp only [loopBody, hs, index, List.get?, bind, Except.bind, if_true, List.length_cons,
      List.length_nil]
  refine ⟨hs, hb, ?_⟩
  simp only [scanLoop, hb]

/-! ## Properties of the time-series client -/

/-- The pusher loop writes once for every two readings it receives, and ends within its
budget when that is more than half the queue. -/
theorem pusherLoop_writes_length (dbc : DBClient) (clock : Nat → Time) :
    ∀ (fuel i : Nat) (ch : Chan), ch.queue.length < 2 * fuel →
      (pusherLoop dbc clock fuel i ch).writes.length = ch.queue.length / 2 ∧
      (pusherLoop dbc clock fuel i ch).ending ≠ .running := by
  intro fuel
  induction fuel with
  | zero => intro i ch h; omega
  | succ n ih =>
    intro i ch h
    obtain ⟨queue, closed⟩ := ch
    match queue with
    | [] =>
      cases closed <;> simp [pusherLoop, Chan.recv]
    | [x] =>
      cases closed <;> simp [pusherLoop, Chan.recv]
    | x :: y :: rest =>
      have hr : rest.length < 2 * n := by
        simp only [List.length_cons] at h
        omega
      obtain ⟨h1, h2⟩ := ih (i + 1) { queue := rest, closed := closed } hr
      simp only [pusherLoop, Chan.recv, Bool.not_true, Bool.false_eq_true, if_false,
        List.length_cons]
      refine ⟨?_, h2⟩
      rw [h1]
      simp only []
      omega

/-- C5: the code at the failing inputs.  Each iteration of the pusher receives twice from
`dbchannel` and writes only the second value.  A single reading is received and never
written; of two readings only the second is written; in general the number of writes is
half the number of readings sent, rounded down. -/
theorem pusher_writes_every_second_reading (dbc : DBClient) (clock : Nat → Time)
    (r1 r2 : MeterReading) (closed : Bool) :
    (pusher dbc clock { queue := [r1], closed := closed }).writes = [] ∧
    (pusher dbc clock { queue := [r1, r2], closed := closed }).writes =
      [batchFor dbc (clock 0) r2] ∧
    ∀ ch : Chan, (pusher dbc clock ch).writes.length = ch.queue.length / 2 := by
  refine ⟨?_, ?_, ?_⟩
  · cases closed <;> simp [pusher, pusherLoop, Chan.recv]
  · cases closed <;> simp [pusher, pusherLoop, Chan.recv]
  · intro ch
    exact (pusherLoop_writes_length dbc clock (ch.queue.length + 1) 0 ch (by omega)).1

/-- The search of `MkDBPusher` finds the database exactly when its name occurs among the
values of a series named `databases`. -/
theorem foundDatabase_iff (Database : String) (Results : List Result) :
    foundDatabase Database Results = true ↔
      ∃ result ∈ Results, ∃ row ∈ result.Series, row.Name = "databases" ∧
        ∃ values ∈ row.Values, Cell.str Database ∈ values := by
  simp only [foundDatabase, List.any_eq_true, Bool.and_eq_true, decide_eq_true_eq]
  constructor
  · rintro ⟨result, hr, row, hrow, hn, values, hv, c, hc, rfl⟩
    exact ⟨result, hr, row, hrow, hn, values, hv, hc⟩
  · rintro ⟨result, hr, row, hrow, hn, values, hv, hc⟩
    exact ⟨result, hr, row, hrow, hn, values, hv, _, hc, rfl⟩

/-- C9 (startup database check).  When the store answers `SHOW DATABASES` with a response
in which the configured database does not occur among the values of a series named
`databases`, `MkDBPusher` returns no pusher function: it ends in `log.Fatal` when the
response carries no error, and returns `nil` with an error when it does.  The only call it
has made to the store is the catalog query, so no point is written and no data is queried.
Conversely, whenever `MkDBPusher` returns a pusher function, the store answered the catalog
query with a response in which the configured name occurs. -/
theorem MkDBPusher_database_absent (dbc : DBClient) (clock : Nat → Time)
    (response : Response)
    (hq : dbc.client { Command := "SHOW DATABASES", Database := dbc.serverconfig.Database }
      = .ok response)
    (habs : ¬ ∃ result ∈ response.Results, ∃ row ∈ result.Series, row.Name = "databases" ∧
      ∃ values ∈ row.Values, Cell.str dbc.serverconfig.Database ∈ values) :
    (MkDBPusher dbc clock).calls =
      [.query { Command := "SHOW DATABASES", Database := dbc.serverconfig.Database }] ∧
    (∀ push e, (MkDBPusher dbc clock).outcome ≠ .ret (some push, e)) ∧
    (response.Error = none → (MkDBPusher dbc clock).outcome = .fatal) ∧
    (∀ e, response.Error = some e → (MkDBPusher dbc clock).outcome =
      .ret (none, some ("Cannot retrieve list of InfluxDB databases: " ++ e))) ∧
    (∀ (dbc2 : DBClient) (clock2 : Nat → Time) push e,
      (MkDBPusher dbc2 clock2).outcome = .ret (some push, e) →
      ∃ response2,
        dbc2.client { Command := "SHOW DATABASES", Database := dbc2.serverconfig.Database }
          = .ok response2 ∧
        ∃ result ∈ response2.Results, ∃ row ∈ result.Series, row.Name = "databases" ∧
          ∃ values ∈ row.Values, Cell.str dbc2.serverconfig.Database ∈ values) := by
  have hnf : foundDatabase dbc.serverconfig.Database response.Results = false := by
    cases hf : foundDatabase dbc.serverconfig.Database response.Results with
    | false => rfl
    | true => exact absurd ((foundDatabase_iff _ _).mp hf) habs
  refine ⟨rfl, ?_, ?_, ?_, ?_⟩
  · intro push e
    simp only [MkDBPusher, hq]
    cases he : response.Error with
    | some msg => simp
    | none => simp [hnf]
  · intro he
    simp [MkDBPusher, hq, he, hnf]
  · intro e he
    simp [MkDBPusher, hq, he]
  · intro dbc2 clock2 push e h
    simp only [MkDBPusher] at h
    cases hq2 : dbc2.client
        { Command := "SHOW DATABASES", Database := dbc2.serverconfig.Database } with
    | error msg => simp [hq2] at h
    | ok response2 =>
      rw [hq2] at h
      cases he : response2.Error with
      | some msg => simp [he] at h
      | none =>
        cases hf : foundDatabase dbc2.serverconfig.Database response2.Results with
        | false => simp [he, hf] at h
        | true => exact ⟨response2, rfl, (foundDatabase_iff _ _).mp hf⟩

theorem MkDBPusher_database_absent_witness :
    (answering (oneSeries "databases" [[.str "_internal"], [.str "weather"]])).client
        { Command := "SHOW DATABASES", Database := "frequency" }
      = .ok (oneSeries "databases" [[.str "_internal"], [.str "weather"]]) ∧
    (¬ ∃ result ∈ (oneSeries "databases" [[.str "_internal"], [.str "weather"]]).Results,
      ∃ row ∈ result.Series, row.Name = "databases" ∧
        ∃ values ∈ row.Values, Cell.str "frequency" ∈ values) ∧
    (MkDBPusher (answering (oneSeries "databases" [[.str "_internal"], [.str "weather"]]))
      (fun _ => Time.zero)).outcome = .fatal :=
  have hq : (answering (oneSeries "databases" [[.str "_internal"], [.str "weather"]])).client
        { Command := "SHOW DATABASES", Database := "frequency" }
      = .ok (oneSeries "databases" [[.str "_internal"], [.str "weather"]]) := rfl
  have habs : ¬ ∃ result ∈
      (oneSeries "databases" [[.str "_internal"], [.str "weather"]]).Results,
      ∃ row ∈ result.Series, row.Name = "databases" ∧
        ∃ values ∈ row.Values, Cell.str "frequency" ∈ values := by
    simp [oneSeries]
  ⟨hq, habs,
    (MkDBPusher_database_absent
      (answering (oneSeries "databases" [[.str "_internal"], [.str "weather"]]))
      (fun _ => Time.zero) _ hq habs).2.2.1 (by decide)⟩

/-- C6: the code at the failing inputs.  The store answers the last-1 query without
error and without series: the answer decodes to the empty list, `GetLastFrequencies`
returns it with a nil error, and `GetLastFrequency` indexes `readings[0]` and panics
instead of returning a non-nil error.  The same happens when the query itself fails:
`GetLastFrequencies` logs the transport error and returns the empty list with a nil
error.  This holds for every meter and every configuration. -/
theorem GetLastFrequency_no_rows_panics (meterID msg : String)
    (serverconfig : InfluxDBConfig) :
    emptyAnswer.Error = none ∧
    points2meterreadings meterID emptyAnswer.Results = .ok [] ∧
    GetLastFrequencies
      { client := fun _ => .ok emptyAnswer, serverconfig := serverconfig } meterID 1
      = .ret ([], none) ∧
    GetLastFrequency
      { client := fun _ => .ok emptyAnswer, serverconfig := serverconfig } meterID
      = .panic (.indexOutOfRange 0 0) ∧
    GetLastFrequencies
      { client := fun _ => .error msg, serverconfig := serverconfig } meterID 1
      = .ret ([], none) ∧
    GetLastFrequency
      { client := fun _ => .error msg, serverconfig := serverconfig } meterID
      = .panic (.indexOutOfRange 0 0) ∧
    (¬ ∃ r e, GetLastFrequency
      { client := fun _ => .ok emptyAnswer, serverconfig := serverconfig } meterID
      = .ret (r, some e)) := by
  have h1 : GetLastFrequency
      { client := fun _ => .ok emptyAnswer, serverconfig := serverconfig } meterID
      = .panic (.indexOutOfRange 0 0) := rfl
  refine ⟨by decide, rfl, rfl, h1, rfl, rfl, ?_⟩
  rintro ⟨r, e, h⟩
  rw [h1] at h
  exact Outcome.noConfusion h

/-- A row with at least three cells whose cells 1 and 2 are numbers decodes without
panic. -/
theorem rowReading_numbers (name : String) (c0 : Cell) (n1 n2 : json_Number)
    (tail : List Cell) :
    rowReading name (c0 :: .number n1 :: .number n2 :: tail) =
      .ok { MeterID := name,
            Reading := { Timestamp := time_Unix n1.Int64.1 0, Value := n2.Float64.1 } } := by
  rfl

/-- Rows of that shape decode one by one. -/
theorem decodeValues_numbers (name : String) (vs : List (List Cell))
    (h : ∀ v ∈ vs, ∃ c0 n1 n2 tail, v = c0 :: Cell.number n1 :: Cell.number n2 :: tail) :
    ∃ readings, decodeValues name vs = .ok readings ∧
      List.Forall₂ (fun v r => ∃ c0 n1 n2 tail,
        v = c0 :: Cell.number n1 :: Cell.number n2 :: tail ∧
        r = { MeterID := name,
              Reading := { Timestamp := time_Unix n1.Int64.1 0, Value := n2.Float64.1 } })
        vs readings := by
  induction vs with
  | nil => exact ⟨[], rfl, .nil⟩
  | cons v vs ih =>
    obtain ⟨c0, n1, n2, tail, hv⟩ := h v (List.mem_cons_self v vs)
    obtain ⟨rs, hrs, hall⟩ := ih (fun w hw => h w (List.mem_cons_of_mem v hw))
    refine ⟨_ :: rs, ?_, .cons ⟨c0, n1, n2, tail, hv, rfl⟩ hall⟩
    simp only [decodeValues, hv, rowReading_numbers, hrs, bind, Except.bind, pure,
      Except.pure]

/-- Series of such rows decode in order. -/
theorem decodeSeries_numbers (name : String) (rows : List Row)
    (h : ∀ row ∈ rows, ∀ v ∈ row.Values,
      ∃ c0 n1 n2 tail, v = c0 :: Cell.number n1 :: Cell.number n2 :: tail) :
    ∃ readings, decodeSeries name rows = .ok readings ∧
      List.Forall₂ (fun v r => ∃ c0 n1 n2 tail,
        v = c0 :: Cell.number n1 :: Cell.number n2 :: tail ∧
        r = { MeterID := name,
              Reading := { Timestamp := time_Unix n1.Int64.1 0, Value := n2.Float64.1 } })
        (rows.map fun row => row.Values).flatten readings := by
  induction rows with
  | nil => exact ⟨[], rfl, .nil⟩
  | cons row rows ih =>
    obtain ⟨a, ha, halla⟩ := decodeValues_numbers name row.Values
      (h row (List.mem_cons_self row rows))
    obtain ⟨b, hb, hallb⟩ := ih (fun r hr => h r (List.mem_cons_of_mem row hr))
    refine ⟨a ++ b, ?_, ?_⟩
    · simp only [decodeSeries, ha, hb, bind, Except.bind, pure, Except.pure]
    · rw [List.map_cons, List.flatten_cons]
      exact List.rel_append halla hallb

/-- C7, as stated, fails.  The timestamp column of the row holds the JSON number `1.5e9`,
which `Int64()` does not convert (it returns 0 and an error).  The error is dropped:
decoding yields a reading with timestamp `time.Unix(0, 0)`, and `GetLastFrequencies` and
`GetFrequenciesBetween` return it with a nil error. -/
theorem decode_unconvertible_timestamp_is_silent :
    (json_Number.ofText "1.5e9").Int64 = (0, some .invalid) ∧
    points2meterreadings "meter1" (oneSeries "frequency" [fractionalRow]).Results =
      .ok [{ MeterID := "meter1",
             Reading := { Timestamp := time_Unix 0 0, Value := 201 / 4 } }] ∧
    GetLastFrequencies (answering (oneSeries "frequency" [fractionalRow])) "meter1" 1 =
      .ret ([{ MeterID := "meter1",
               Reading := { Timestamp := time_Unix 0 0, Value := 201 / 4 } }], none) ∧
    GetFrequenciesBetween (answering (oneSeries "frequency" [fractionalRow])) "meter1"
        (time_Unix 0 0) (time_Unix 2000000000 0) =
      .ret ([{ MeterID := "meter1",
               Reading := { Timestamp := time_Unix 0 0, Value := 201 / 4 } }], none) := by
  refine ⟨by decide, by decide!, by decide!, by decide!⟩

/-- C7, amended.  Decoding reports no error of its own.  When the result list is not empty
and every row of its first result has at least three cells with numbers in cells 1 and 2,
`points2meterreadings` returns, in order, one reading per row: the row `[_, n1, n2]` gives
`Reading{time.Unix(ts, 0), v}` where `ts` and `v` are the values returned by `n1.Int64()`
and `n2.Float64()`, whose errors are dropped.  `GetLastFrequencies` and
`GetFrequenciesBetween` return these readings with a nil error when the store answers
their query with such a response that carries no error. -/
theorem points2meterreadings_of_numbers (name : String) (res0 : Result)
    (others : List Result)
    (h : ∀ row ∈ res0.Series, ∀ v ∈ row.Values,
      ∃ c0 n1 n2 tail, v = c0 :: Cell.number n1 :: Cell.number n2 :: tail) :
    ∃ readings,
      points2meterreadings name (res0 :: others) = .ok readings ∧
      List.Forall₂ (fun v r => ∃ c0 n1 n2 tail,
        v = c0 :: Cell.number n1 :: Cell.number n2 :: tail ∧
        r = { MeterID := name,
              Reading := { Timestamp := time_Unix n1.Int64.1 0, Value := n2.Float64.1 } })
        (res0.Series.map fun row => row.Values).flatten readings ∧
      (∀ (dbc : DBClient) (amount : Int) (response : Response),
        dbc.client { Command := lastCommand dbc.serverconfig.Database name amount,
                     Database := dbc.serverconfig.Database } = .ok response →
        response.Error = none → response.Results = res0 :: others →
        GetLastFrequencies dbc name amount = .ret (readings, none)) ∧
      (∀ (dbc : DBClient) (start stop : Time) (response : Response),
        dbc.client { Command := betweenCommand dbc.serverconfig.Database name start stop,
                     Database := dbc.serverconfig.Database } = .ok response →
        response.Error = none → response.Results = res0 :: others →
        GetFrequenciesBetween dbc name start stop = .ret (readings, none)) := by
  obtain ⟨readings, hd, hall⟩ := decodeSeries_numbers name res0.Series h
  have hp : points2meterreadings name (res0 :: others) = .ok readings := by
    simp only [points2meterreadings, index, List.get?, bind, Except.bind, hd]
  refine ⟨readings, hp, hall, ?_, ?_⟩
  · intro dbc amount response hq he hr
    simp [GetLastFrequencies, hq, he, hr, hp]
  · intro dbc start stop response hq he hr
    simp [GetFrequenciesBetween, hq, he, hr, hp]

theorem points2meterreadings_of_numbers_witness :
    (∀ row ∈ (Result.mk [Row.mk "frequency" ["time", "timestamp", "value"] [plainRow]]
        "").Series,
      ∀ v ∈ row.Values,
        ∃ c0 n1 n2 tail, v = c0 :: Cell.number n1 :: Cell.number n2 :: tail) ∧
    ∃ readings,
      points2meterreadings "meter1"
        (Result.mk [Row.mk "frequency" ["time", "timestamp", "value"] [plainRow]] "" :: [])
        = .ok readings ∧
      List.Forall₂ (fun v r => ∃ c0 n1 n2 tail,
        v = c0 :: Cell.number n1 :: Cell.number n2 :: tail ∧
        r = { MeterID := "meter1",
              Reading := { Timestamp := time_Unix n1.Int64.1 0, Value := n2.Float64.1 } })
        [plainRow] readings :=
  have hw : ∀ row ∈ (Result.mk [Row.mk "frequency" ["time", "timestamp", "value"] [plainRow]]
        "").Series,
      ∀ v ∈ row.Values,
        ∃ c0 n1 n2 tail, v = c0 :: Cell.number n1 :: Cell.number n2 :: tail := by
    intro row hrow v hv
    simp only [List.mem_singleton] at hrow
    subst hrow
    simp only [List.mem_singleton] at hv
    subst hv
    exact ⟨_, _, _, _, rfl⟩
  have hr := points2meterreadings_of_numbers "meter1"
    (Result.mk [Row.mk "frequency" ["time", "timestamp", "value"] [plainRow]] "") [] hw
  ⟨hw, hr.choose, hr.choose_spec.1, by simpa using hr.choose_spec.2.1⟩

/-- The query text of `GetLastFrequencies` is never the catalog query. -/
theorem lastCommand_ne_show (Database meterID : String) (amount : Int) :
    lastCommand Database meterID amount ≠ "SHOW DATABASES" := by
  intro h
  have hd := congrArg String.data h
  simp only [lastCommand, String.data_append] at hd
  have hh := congrArg List.head? hd
  simp at hh

/-- C8: the code at the failing input.  For every reading `r`, every configuration and
every clock: the pusher made by `MkDBPusher` receives `r` and writes nothing (its first
receive of an iteration discards the value), the store stays empty, and
`GetLastFrequency(r.MeterID)` panics on the empty result instead of returning `r`. -/
theorem roundTrip_loses_the_reading (serverconfig : InfluxDBConfig) (clock : Nat → Time)
    (r : MeterReading) :
    (pusher { client := storeClient serverconfig.Database [], serverconfig := serverconfig }
      clock { queue := [r], closed := false }).writes = [] ∧
    roundTrip serverconfig clock r = .panic (.indexOutOfRange 0 0) := by
  have hw : (pusher
      { client := storeClient serverconfig.Database [], serverconfig := serverconfig }
      clock { queue := [r], closed := false }).writes = [] := by
    simp [pusher, pusherLoop, Chan.recv]
  refine ⟨hw, ?_⟩
  have hfound : foundDatabase serverconfig.Database
      [{ Series := [{ Name := "databases", Columns := ["name"],
                      Values := [[Cell.str serverconfig.Database]] }], Err := "" }]
      = true := by
    simp [foundDatabase]
  have hget : GetLastFrequency
      { client := storeClient serverconfig.Database [], serverconfig := serverconfig }
      r.MeterID = .panic (.indexOutOfRange 0 0) := by
    simp [GetLastFrequency, GetLastFrequencies, storeClient, lastCommand_ne_show,
      emptyAnswer, Response.Error, points2meterreadings, index, decodeSeries, bind,
      Except.bind, pure, Except.pure]
  simp only [roundTrip, MkDBPusher, storeClient, if_true, Response.Error, hfound]
  simp [hw, hget]

end Defluxio
